import Mathlib

/-!
Verification of the natural-language specification of `step_to_meshes`
(files `step_to_meshes.py` and `step_to_meshes_fusion360.py`) against the
source code, via a shallow embedding in Lean 4.

Modelling conventions:
* File-system paths are modelled as lists of path components
  (`List String`); `os.path.split p` is `(p.dropLast, p.getLast)` and
  `os.path.join d f` is `d ++ [f]`.
* The external meshlabserver process is an opaque parameter
  `engine : Invocation → EngResult` mapping the command that
  `run_script_on_mesh` builds to a process exit code and stdout text.
* Python exceptions are modelled with `Except PyError`.
* Python floats are modelled as rationals where only field arithmetic
  occurs, and as reals where `math.sqrt` / `math.acos` / `math.pi`
  appear; `math.acos` raises `ValueError` outside `[-1, 1]` and float
  division by zero raises `ZeroDivisionError`, so those are modelled as
  `Option`-valued operations.
* FreeCAD placements (rigid transforms) form a group under `multiply`
  with `inverse` and the identity placement, so code that only composes,
  inverts and stores placements is modelled over an arbitrary group.
-/

deriving instance DecidableEq for Except

/-- Python exceptions that the modelled code can raise. -/
inductive PyError where
  /-- `AttributeError`: e.g. `os.join` / `os.split` do not exist. -/
  | attributeError
  /-- `subprocess.CalledProcessError`, carrying the process exit code. -/
  | calledProcessError (exitCode : Int)
  /-- `NameError`: a name referenced before assignment (`prev_pl`). -/
  | nameError
  /-- `IndexError`: e.g. `placements[-1]` on an empty list. -/
  | indexError
  /-- `ValueError`: e.g. `float()` applied to a non-numeric cell. -/
  | valueError
  /-- Failure raised by the opaque `Mesh.export` collaborator. -/
  | exportError
deriving DecidableEq, Repr

/-- The command line `run_script_on_mesh` hands to the external engine:
`meshlabserver -i imesh -o omesh optargs -s script`. -/
structure Invocation where
  imesh : List String
  omesh : List String
  optargs : String
  script : List String
deriving DecidableEq, Repr

/-- Exit code and stdout of one run of the external engine process. -/
structure EngResult where
  exitCode : Int
  stdout : String

/-- Result of `run_script_on_mesh`: the Python return/raise outcome, the
engine invocations that actually happened, and the lines echoed to the
console. -/
structure RunResult where
  result : Except PyError Unit
  invocations : List Invocation
  console : List String
deriving DecidableEq, Repr

/-- Default for the `optargs` keyword of `run_script_on_mesh`. -/
def defaultOptargs : String := "-om vn fn"

/-- Shallow embedding of `run_script_on_mesh` (step_to_meshes.py:19-39).
When `omesh_path` is unspecified the source calls `os.join`, which does
not exist, so an `AttributeError` is raised before any engine run.
Otherwise the command is built identically in both branches; with
`verbose` the source uses `subprocess.check_output` (raises
`CalledProcessError` on a non-zero exit, echoes the captured stdout),
without it `subprocess.call` with stdout/stderr piped to `/dev/null`
(the exit code is discarded). -/
def run_script_on_mesh (engine : Invocation → EngResult)
    (imesh_path script_path : List String) (omesh_path : Option (List String))
    (optargs : String) (verbose : Bool) : RunResult :=
  match omesh_path with
  | none => ⟨.error .attributeError, [], []⟩
  | some omesh =>
    let inv : Invocation := ⟨imesh_path, omesh, optargs, script_path⟩
    let r := engine inv
    if verbose then
      if r.exitCode ≠ 0 then ⟨.error (.calledProcessError r.exitCode), [inv], []⟩
      else ⟨.ok (), [inv], [r.stdout]⟩
    else
      ⟨.ok (), [inv], []⟩

/-- Result of `make_simplified_STL`: outcome (the returned output path on
success) and the engine invocations that happened, in order. -/
structure SimplifyResult where
  result : Except PyError (List String)
  invocations : List Invocation
deriving DecidableEq, Repr

/-- The `for i in xrange(1, n_iterations)` loop of `make_simplified_STL`
(step_to_meshes.py:105-111), run `k` times: each pass invokes the engine
with the output path as both input and output, propagating any
exception. -/
def simplifyIters (engine : Invocation → EngResult)
    (omesh script_path : List String) (verbose : Bool) :
    Nat → Except PyError Unit × List Invocation
  | 0 => (.ok (), [])
  | k + 1 =>
    let r := run_script_on_mesh engine omesh script_path (some omesh) defaultOptargs verbose
    match r.result with
    | .error e => (.error e, r.invocations)
    | .ok _ =>
      let rest := simplifyIters engine omesh script_path verbose k
      (rest.1, r.invocations ++ rest.2)

/-- Shallow embedding of `make_simplified_STL` (step_to_meshes.py:92-114).
If no output path is given it defaults to `simple.stl` next to the
input.  The engine is invoked once before the loop (without `verbose`),
and then `xrange(1, n_iterations)` further times, i.e.
`max 0 (n_iterations - 1)` times, in place on the output path (with
`verbose`); the output path is returned. -/
def make_simplified_STL (engine : Invocation → EngResult)
    (imesh_path script_path : List String) (omesh_path : Option (List String))
    (n_iterations : Int) (verbose : Bool) : SimplifyResult :=
  let meshfolder_path := imesh_path.dropLast
  let omesh := omesh_path.getD (meshfolder_path ++ ["simple.stl"])
  let r1 := run_script_on_mesh engine imesh_path script_path (some omesh) defaultOptargs false
  match r1.result with
  | .error e => ⟨.error e, r1.invocations⟩
  | .ok _ =>
    let rest := simplifyIters engine omesh script_path verbose (n_iterations - 1).toNat
    match rest.1 with
    | .error e => ⟨.error e, r1.invocations ++ rest.2⟩
    | .ok _ => ⟨.ok omesh, r1.invocations ++ rest.2⟩

/-- The value passed for the `placement` keyword of `make_STL` /
`make_OBJ`: the string `"local"`, an explicit `FreeCAD.Placement`, or
any other value (the main script passes the empty string for the
global-frame mode). -/
inductive PlacementArg (G : Type) where
  | localStr
  | explicitPl (p : G)
  | otherVal
deriving DecidableEq

/-- Outcome of one `make_STL` / `make_OBJ` call: the Python
return/raise outcome and the value of `obj.Placement` at the moment the
call exits.  The placement type is an arbitrary group `G`;
`obj.Placement.inverse().multiply(obj.Placement)` is `p⁻¹ * p`. -/
structure ExportOutcome (G : Type) where
  result : Except PyError Unit
  placement : G
deriving DecidableEq

/-- Shallow embedding of `make_STL` (step_to_meshes.py:41-64), restricted
to the placement state of the exported object.  `exportOk` says whether
the opaque `Mesh.export` collaborator succeeds; `omeshGiven` whether an
explicit `omesh_path` was passed (if so, line 52 calls `os.split`, which
does not exist, raising `AttributeError` before any mutation).  In the
`"local"` branch the placement is saved in `prev_pl`, replaced by
`p⁻¹ * p`, and written back after the export; if the export raises, the
write-back on line 63 is never reached.  In the other two branches
`prev_pl` was never assigned, so line 63 raises `NameError` after the
export. -/
def make_STL {G : Type} [Group G] (exportOk : Bool) (pl0 : G)
    (arg : PlacementArg G) (omeshGiven : Bool) : ExportOutcome G :=
  if omeshGiven then ⟨.error .attributeError, pl0⟩
  else
    match arg with
    | .localStr =>
      let prev_pl := pl0
      let pl1 := pl0⁻¹ * pl0
      if exportOk then ⟨.ok (), prev_pl⟩ else ⟨.error .exportError, pl1⟩
    | .explicitPl p =>
      if exportOk then ⟨.error .nameError, p⟩ else ⟨.error .exportError, p⟩
    | .otherVal =>
      if exportOk then ⟨.error .nameError, pl0⟩ else ⟨.error .exportError, pl0⟩

/-- Shallow embedding of `make_OBJ` (step_to_meshes.py:66-90), restricted
to the placement state.  Unlike `make_STL` it never restores the
placement: in the `"local"` branch the object is left at `p⁻¹ * p` (the
identity) and in the explicit branch at the passed placement, on every
exit path. -/
def make_OBJ {G : Type} [Group G] (exportOk : Bool) (pl0 : G)
    (arg : PlacementArg G) (omeshGiven : Bool) : ExportOutcome G :=
  if omeshGiven then ⟨.error .attributeError, pl0⟩
  else
    match arg with
    | .localStr =>
      let pl1 := pl0⁻¹ * pl0
      if exportOk then ⟨.ok (), pl1⟩ else ⟨.error .exportError, pl1⟩
    | .explicitPl p =>
      if exportOk then ⟨.ok (), p⟩ else ⟨.error .exportError, p⟩
    | .otherVal =>
      if exportOk then ⟨.ok (), pl0⟩ else ⟨.error .exportError, pl0⟩

/-- A FreeCAD document object as seen by `get_unique_objects`: a Label
and an opaque geometry handle (the handle is what the CAD collaborator's
geometric-equality predicate compares; `get_unique_objects` never looks
at it). -/
structure FCObj where
  label : String
  geom : Nat
deriving DecidableEq, Repr

/-- Shallow embedding of `get_unique_objects` (step_to_meshes.py:132-142):
an object is appended to `unique_objects` iff its Label does not already
occur among the collected objects' Labels (the generator expression
tests the Labels in the order the unique objects were collected). -/
def get_unique_objects (objects : List FCObj) : List FCObj :=
  objects.foldl
    (fun unique_objects obj =>
      if (unique_objects.map (fun o => o.label)).contains obj.label then
        unique_objects
      else unique_objects ++ [obj])
    []

/-- A dedup group as described by the spec: one representative plus the
ordered list of member occurrences. -/
structure DGroup where
  rep : FCObj
  members : List FCObj
deriving DecidableEq, Repr

/-- One step of the dedup procedure described by the spec: test the
occurrence against the existing groups' representatives in
group-creation order, join the first match, otherwise start a new group
with this occurrence as representative and first member. -/
def addOcc (eq : FCObj → FCObj → Bool) (groups : List DGroup) (obj : FCObj) :
    List DGroup :=
  match groups with
  | [] => [⟨obj, [obj]⟩]
  | g :: gs =>
    if eq obj g.rep then ⟨g.rep, g.members ++ [obj]⟩ :: gs
    else g :: addOcc eq gs obj

/-- The dedup procedure described by the spec, parametrised by the
equality predicate: fold `addOcc` over the document's objects in
document order. -/
def dedupeSpec (eq : FCObj → FCObj → Bool) (objects : List FCObj) :
    List DGroup :=
  objects.foldl (addOcc eq) []

/-- Label equality: the uniqueness predicate the source actually uses. -/
def labelEqObj (a b : FCObj) : Bool := a.label == b.label

/-- Geometric equality as provided by the CAD collaborator: equality of
the opaque geometry handles. -/
def geomEqObj (a b : FCObj) : Bool := a.geom == b.geom

/-- A 3-vector of float components (FreeCAD `Vector`). -/
structure Vec3 where
  x : ℚ
  y : ℚ
  z : ℚ
deriving DecidableEq, Repr

/-- A FreeCAD `Rotation`: an axis and an angle. -/
structure FCRotation where
  axis : Vec3
  angle : ℚ
deriving DecidableEq, Repr

/-- A FreeCAD `Placement`: a translation `Base` and a `Rotation`. -/
structure FCPlacement where
  base : Vec3
  rotation : FCRotation
deriving DecidableEq, Repr

/-- `FreeCAD.Placement()`: zero translation, default axis (0,0,1),
zero angle. -/
def defaultFCPlacement : FCPlacement := ⟨⟨0, 0, 0⟩, ⟨⟨0, 0, 1⟩, 0⟩⟩

/-- One CSV cell: a tag/text cell or a numeric cell.  The value type is
a parameter because `placement2csv` writes rationals while the Fusion
360 script writes values produced with real-valued trigonometry. -/
inductive Cell (α : Type) where
  | str (s : String)
  | num (v : α)
deriving DecidableEq, Repr

/-- The rows `placement2csv` writes for one placement
(step_to_meshes.py:154-163).  `pl.toMatrix()` is an opaque FreeCAD
collaborator, passed in as `toMatrix`. -/
def placementRows (toMatrix : FCPlacement → Fin 4 → Fin 4 → ℚ)
    (pl : FCPlacement) : List (List (Cell ℚ)) :=
  let mat := toMatrix pl
  [[.str "Placement"],
   [.str "Base", .num pl.base.x, .num pl.base.y, .num pl.base.z],
   [.str "Axis", .num pl.rotation.axis.x, .num pl.rotation.axis.y,
     .num pl.rotation.axis.z],
   [.str "Angle", .num pl.rotation.angle],
   [.str "Matrixr1", .num (mat 0 0), .num (mat 0 1), .num (mat 0 2), .num (mat 0 3)],
   [.str "Matrixr2", .num (mat 1 0), .num (mat 1 1), .num (mat 1 2), .num (mat 1 3)],
   [.str "Matrixr3", .num (mat 2 0), .num (mat 2 1), .num (mat 2 2), .num (mat 2 3)],
   [.str "Matrixr4", .num (mat 3 0), .num (mat 3 1), .num (mat 3 2), .num (mat 3 3)]]

/-- Shallow embedding of `placement2csv` (step_to_meshes.py:145-164),
modelling the written CSV file as its list of rows (a non-list argument
is wrapped into a one-element list by the source, so the input here is
already a list). -/
def placement2csv (toMatrix : FCPlacement → Fin 4 → Fin 4 → ℚ)
    (placements : List FCPlacement) : List (List (Cell ℚ)) :=
  placements.foldl (fun acc pl => acc ++ placementRows toMatrix pl) []

/-- `float(cell)`: a numeric cell parses back to its value, anything
else raises `ValueError`. -/
def cellFloat : Cell ℚ → Except PyError ℚ
  | .num v => .ok v
  | .str _ => .error .valueError

/-- `row[i]` with an `IndexError` when the row is too short. -/
def rowGet (row : List (Cell ℚ)) (i : Nat) : Except PyError (Cell ℚ) :=
  match row.get? i with
  | some c => .ok c
  | none => .error .indexError

/-- Mutate `placements[-1]`; `IndexError` when the list is empty. -/
def modifyLast (ps : List FCPlacement) (f : FCPlacement → FCPlacement) :
    Except PyError (List FCPlacement) :=
  match ps.getLast? with
  | none => .error .indexError
  | some p => .ok (ps.dropLast ++ [f p])

/-- One row of the `csv2placement` reader loop
(step_to_meshes.py:172-184): a `"Placement_Index"` tag appends a fresh
default placement, `"Base"` / `"Axis"` / `"Angle"` rows parse their
fields and overwrite the corresponding components of the last placement,
and any other row is skipped. -/
def csv2placementStep (ps : List FCPlacement) (row : List (Cell ℚ)) :
    Except PyError (List FCPlacement) := do
  let c0 ← rowGet row 0
  if c0 = Cell.str "Placement_Index" then
    return ps ++ [defaultFCPlacement]
  else if c0 = Cell.str "Base" then
    let x ← cellFloat (← rowGet row 1)
    let y ← cellFloat (← rowGet row 2)
    let z ← cellFloat (← rowGet row 3)
    modifyLast ps (fun p => { p with base := ⟨x, y, z⟩ })
  else if c0 = Cell.str "Axis" then
    let x ← cellFloat (← rowGet row 1)
    let y ← cellFloat (← rowGet row 2)
    let z ← cellFloat (← rowGet row 3)
    modifyLast ps (fun p => { p with rotation := ⟨⟨x, y, z⟩, p.rotation.angle⟩ })
  else if c0 = Cell.str "Angle" then
    let a ← cellFloat (← rowGet row 1)
    modifyLast ps (fun p => { p with rotation := ⟨p.rotation.axis, a⟩ })
  else
    return ps

/-- Shallow embedding of `csv2placement` (step_to_meshes.py:167-185). -/
def csv2placement (rows : List (List (Cell ℚ))) :
    Except PyError (List FCPlacement) :=
  rows.foldlM csv2placementStep []

/-- A concrete stand-in for the opaque `toMatrix` collaborator (its
values are written to rows that `csv2placement` ignores). -/
def toMatrix0 : FCPlacement → Fin 4 → Fin 4 → ℚ := fun _ _ _ => 0

/-- A sample placement for the round-trip counterexample. -/
def samplePlacement : FCPlacement := ⟨⟨1, 2, 3⟩, ⟨⟨0, 0, 1⟩, 0⟩⟩

/-- The literal `epsilon = 0.00001` of
`step_to_meshes_fusion360.py:16`. -/
noncomputable def eps : ℝ := 0.00001

/-- Float division: Python raises `ZeroDivisionError` when the divisor
is zero. -/
noncomputable def safeDiv (a b : ℝ) : Option ℝ :=
  if b = 0 then none else some (a / b)

/-- `math.acos`: raises `ValueError` outside `[-1, 1]`. -/
noncomputable def safeAcos (t : ℝ) : Option ℝ :=
  if t < -1 ∨ 1 < t then none else some (Real.arccos t)

/-- Shallow embedding of `rotation_to_axis_angle`
(step_to_meshes_fusion360.py:10-65), returning
`some (angle, axis_x, axis_y, axis_z)` unless a division or `math.acos`
fails.  Two Python quirks are modelled faithfully: on line 19 the
source computes `abs(r01+r10 < 2*epsilon)`, i.e. `abs` of a boolean,
whose truthiness is just the comparison itself; and `math.sqrt` only
ever receives non-negative arguments here (a sum of squares, or a value
guarded to be at least `epsilon`), so it is modelled by the total
`Real.sqrt`. -/
noncomputable def rotation_to_axis_angle
    (r00 r01 r02 r10 r11 r12 r20 r21 r22 : ℝ) : Option (ℝ × ℝ × ℝ × ℝ) :=
  if |r01 - r10| < eps ∧ |r02 - r20| < eps ∧ |r12 - r21| < eps then
    if (r01 + r10 < 2 * eps) ∧ |r02 + r20| < 2 * eps ∧ |r12 + r21| < eps ∧
        |r00 + r11 + r22 - 3| < eps then
      some (0, 1, 0, 0)
    else
      let xx := (r00 + 1) / 2
      let yy := (r11 + 1) / 2
      let zz := (r22 + 1) / 2
      let xy := (r01 + r10) / 4
      let xz := (r02 + r20) / 4
      let yz := (r12 + r21) / 4
      if xx > yy ∧ xx > zz then
        if xx < eps then
          some (Real.pi, 0, 0.7071, 0.7071)
        else
          let x := Real.sqrt xx
          do
            let y ← safeDiv xy x
            let z ← safeDiv xz x
            return (Real.pi, x, y, z)
      else if yy > zz then
        if yy < eps then
          some (Real.pi, 0.7071, 0, 0.7071)
        else
          let y := Real.sqrt yy
          do
            let x ← safeDiv xy y
            let z ← safeDiv yz y
            return (Real.pi, x, y, z)
      else
        if zz < eps then
          some (Real.pi, 0.7071, 0.7071, 0)
        else
          let z := Real.sqrt zz
          do
            let x ← safeDiv xz z
            let y ← safeDiv yz z
            return (Real.pi, x, y, z)
  else
    let s0 := Real.sqrt ((r21 - r12) * (r21 - r12) + (r02 - r20) * (r02 - r20) +
      (r10 - r01) * (r10 - r01))
    let s := if |s0| < eps then 1 else s0
    do
      let angle ← safeAcos ((r00 + r11 + r22 - 1) / 2)
      let x ← safeDiv (r21 - r12) s
      let y ← safeDiv (r02 - r20) s
      let z ← safeDiv (r10 - r01) s
      return (angle, x, y, z)

/-- An `adsk.core.Matrix3D` as used by the Fusion 360 script:
`getCell(row, column)` of the 4x4 homogeneous transform. -/
structure Transform where
  cells : Fin 4 → Fin 4 → ℝ

/-- Shallow embedding of `transform_to_xyz_angle_axis`
(step_to_meshes_fusion360.py:68-74): `some (x, y, z, angle, axis_x,
axis_y, axis_z)`. -/
noncomputable def transform_to_xyz_angle_axis (t : Transform) :
    Option (ℝ × ℝ × ℝ × ℝ × ℝ × ℝ × ℝ) := do
  let r ← rotation_to_axis_angle
    (t.cells 0 0) (t.cells 0 1) (t.cells 0 2)
    (t.cells 1 0) (t.cells 1 1) (t.cells 1 2)
    (t.cells 2 0) (t.cells 2 1) (t.cells 2 2)
  return (t.cells 0 3, t.cells 1 3, t.cells 2 3, r.1, r.2.1, r.2.2.1, r.2.2.2)

/-- `s.replace(":", "__")` on the character list of a name (the pattern
is a single character, so the replacement maps each character
independently). -/
def pyReplaceColon : List Char → List Char
  | [] => []
  | c :: cs => (if c = ':' then ['_', '_'] else [c]) ++ pyReplaceColon cs

/-- `occ.name.replace(":", "__")` (step_to_meshes_fusion360.py:116). -/
def sanitizeLabel (s : String) : String := ⟨pyReplaceColon s.data⟩

/-- One placed instance of a component as seen by the Fusion 360
script: its name and its transform. -/
structure Occurrence where
  name : String
  transform : Transform

/-- The header row written at step_to_meshes_fusion360.py:112. -/
def headerRow : List (Cell ℝ) :=
  [.str "Label", .str "x [m]", .str "y [m]", .str "z [m]",
   .str "axis_x", .str "axis_y", .str "axis_z", .str "angle"]

/-- The data row written for one occurrence
(step_to_meshes_fusion360.py:113-118): sanitized name, x, y, z,
axis_x, axis_y, axis_z, angle. -/
noncomputable def occurrenceRow (occ : Occurrence) : Option (List (Cell ℝ)) := do
  let v ← transform_to_xyz_angle_axis occ.transform
  return [.str (sanitizeLabel occ.name), .num v.1, .num v.2.1, .num v.2.2.1,
    .num v.2.2.2.2.1, .num v.2.2.2.2.2.1, .num v.2.2.2.2.2.2, .num v.2.2.2.1]

/-- The `for occ in occurrences` loop writing one data row per
occurrence, in input order. -/
noncomputable def writeRowsLoop : List Occurrence → Option (List (List (Cell ℝ)))
  | [] => some []
  | occ :: rest => do
    let row ← occurrenceRow occ
    let rows ← writeRowsLoop rest
    return row :: rows

/-- The complete `placements.csv` contents written for one component
(step_to_meshes_fusion360.py:110-118): the header row followed by the
occurrence rows. -/
noncomputable def writePlacementsCsv (occs : List Occurrence) :
    Option (List (List (Cell ℝ))) := do
  let rows ← writeRowsLoop occs
  return headerRow :: rows

/-- An engine that always succeeds with empty stdout. -/
def engine0 : Invocation → EngResult := fun _ => ⟨0, ""⟩

/-- An engine that always fails with exit code 2. -/
def engine2 : Invocation → EngResult := fun _ => ⟨2, "boom"⟩

/-- The identity transform (identity rotation block, zero
translation). -/
noncomputable def tId : Transform := ⟨fun i j => if i = j then 1 else 0⟩

/-- A sample occurrence at the identity transform, with a name that
exercises the `":"` sanitisation. -/
noncomputable def occ0 : Occurrence := ⟨"Bolt:1", tId⟩

/-- The data row that `occ0` produces. -/
noncomputable def occ0Row : List (Cell ℝ) :=
  [.str "Bolt__1", .num 0, .num 0, .num 0, .num 1, .num 0, .num 0, .num 0]

/-- `safeDiv` succeeds whenever the divisor is nonzero. -/
theorem safeDiv_of_ne (a b : ℝ) (hb : b ≠ 0) : safeDiv a b = some (a / b) := by
  unfold safeDiv
  rw [if_neg hb]

/-- `safeAcos` succeeds on arguments in `[-1, 1]`. -/
theorem safeAcos_of_mem (t : ℝ) (h1 : -1 ≤ t) (h2 : t ≤ 1) :
    safeAcos t = some (Real.arccos t) := by
  unfold safeAcos
  rw [if_neg]
  push_neg
  exact ⟨h1, h2⟩

/-- The square root of a value that failed the `< epsilon` guard is
nonzero. -/
theorem sqrt_ne_of_eps (v : ℝ) (h : ¬ v < eps) : Real.sqrt v ≠ 0 := by
  have hv : (0:ℝ) < v := by
    have heps : (0:ℝ) < eps := by norm_num [eps]
    linarith [not_lt.mp h]
  exact ne_of_gt (Real.sqrt_pos.mpr hv)

/-- Evaluating `rotation_to_axis_angle` at the identity rotation: the
zero-angle singularity branch returns angle 0 and axis (1, 0, 0). -/
theorem rot_id_eval : rotation_to_axis_angle 1 0 0 0 1 0 0 0 1 = some (0, 1, 0, 0) := by
  unfold rotation_to_axis_angle
  rw [if_pos (by norm_num [eps]), if_pos (by norm_num [eps])]

/-- Evaluating `transform_to_xyz_angle_axis` at the identity
transform. -/
theorem transform_id_eval :
    transform_to_xyz_angle_axis tId = some (0, 0, 0, 0, 1, 0, 0) := by
  unfold transform_to_xyz_angle_axis
  simp only [show tId.cells 0 0 = (1:ℝ) from rfl, show tId.cells 0 1 = (0:ℝ) from rfl,
    show tId.cells 0 2 = (0:ℝ) from rfl, show tId.cells 0 3 = (0:ℝ) from rfl,
    show tId.cells 1 0 = (0:ℝ) from rfl, show tId.cells 1 1 = (1:ℝ) from rfl,
    show tId.cells 1 2 = (0:ℝ) from rfl, show tId.cells 1 3 = (0:ℝ) from rfl,
    show tId.cells 2 0 = (0:ℝ) from rfl, show tId.cells 2 1 = (0:ℝ) from rfl,
    show tId.cells 2 2 = (1:ℝ) from rfl, show tId.cells 2 3 = (0:ℝ) from rfl]
  rw [rot_id_eval]
  rfl

/-- The sanitiser rewrites `":"` to `"__"`. -/
theorem sanitize_eval : sanitizeLabel "Bolt:1" = "Bolt__1" := by decide

/-- Evaluating `occurrenceRow` at the sample occurrence. -/
theorem occ0_eval : occurrenceRow occ0 = some occ0Row := by
  unfold occurrenceRow
  show (transform_to_xyz_angle_axis occ0.transform).bind _ = _
  have ht : occ0.transform = tId := rfl
  rw [ht, transform_id_eval]
  simp [occ0, occ0Row, sanitize_eval]

/-- Evaluating the placements file writer at the one-occurrence
document. -/
theorem writeCsv_occ0_eval :
    writePlacementsCsv [occ0] = some [headerRow, occ0Row] := by
  unfold writePlacementsCsv writeRowsLoop writeRowsLoop
  rw [occ0_eval]
  rfl

/-- Representatives after `addOcc`: unchanged when some representative
matches, extended by the new occurrence otherwise. -/
theorem addOcc_map_rep (eq : FCObj → FCObj → Bool) (gs : List DGroup) (o : FCObj) :
    (addOcc eq gs o).map (fun g => g.rep) =
      if gs.any (fun g => eq o g.rep) then gs.map (fun g => g.rep)
      else gs.map (fun g => g.rep) ++ [o] := by
  induction gs with
  | nil => simp [addOcc]
  | cons g gs ih =>
    by_cases h : eq o g.rep
    · simp [addOcc, h]
    · have hstep : addOcc eq (g :: gs) o = g :: addOcc eq gs o := by
        simp [addOcc, h]
      rw [hstep, List.map_cons, ih, List.any_cons]
      by_cases h2 : gs.any (fun g => eq o g.rep)
      · simp [h, h2]
      · simp [h, h2]

/-- The fold of `get_unique_objects` computes exactly the representative
list of the spec-described procedure run with label equality, from any
matching intermediate state. -/
theorem dedupe_fold_inv (objects : List FCObj) :
    ∀ gs : List DGroup,
      objects.foldl
        (fun unique_objects obj =>
          if (unique_objects.map (fun o => o.label)).contains obj.label then
            unique_objects
          else unique_objects ++ [obj])
        (gs.map (fun g => g.rep)) =
      (objects.foldl (addOcc labelEqObj) gs).map (fun g => g.rep) := by
  induction objects with
  | nil => intro gs; simp
  | cons o os ih =>
    intro gs
    simp only [List.foldl_cons]
    have hcond : ((gs.map (fun g => g.rep)).map (fun o => o.label)).contains o.label
        = gs.any (fun g => labelEqObj o g.rep) := by
      induction gs with
      | nil => rfl
      | cons g gs ihg =>
        simp only [List.map_cons, List.contains_cons, List.any_cons, ihg, labelEqObj]
    rw [hcond]
    by_cases h : gs.any (fun g => labelEqObj o g.rep)
    · rw [if_pos h]
      have hrep : gs.map (fun g => g.rep) = (addOcc labelEqObj gs o).map (fun g => g.rep) := by
        rw [addOcc_map_rep, if_pos h]
      rw [hrep, ih]
    · rw [if_neg h]
      have hrep : gs.map (fun g => g.rep) ++ [o]
          = (addOcc labelEqObj gs o).map (fun g => g.rep) := by
        rw [addOcc_map_rep, if_neg h]
      rw [hrep, ih]

/-- `addOcc` adds its occurrence to exactly one group: the flattened
member lists gain exactly that occurrence. -/
theorem addOcc_members_perm (eq : FCObj → FCObj → Bool) (gs : List DGroup) (o : FCObj) :
    ((addOcc eq gs o).flatMap (fun g => g.members)).Perm
      (o :: gs.flatMap (fun g => g.members)) := by
  induction gs with
  | nil => simp [addOcc]
  | cons g gs ih =>
    simp only [addOcc]
    by_cases h : eq o g.rep
    · rw [if_pos h]
      simp only [List.flatMap_cons]
      rw [List.append_assoc, List.singleton_append]
      exact List.perm_middle
    · rw [if_neg h]
      simp only [List.flatMap_cons]
      exact (ih.append_left g.members).trans List.perm_middle

/-- The spec-described procedure partitions the document: the flattened
member lists of the groups are a permutation of the input objects. -/
theorem dedupe_members_perm (eq : FCObj → FCObj → Bool) (objects : List FCObj) :
    ∀ gs : List DGroup,
      ((objects.foldl (addOcc eq) gs).flatMap (fun g => g.members)).Perm
        (gs.flatMap (fun g => g.members) ++ objects) := by
  induction objects with
  | nil => intro gs; simp
  | cons o os ih =>
    intro gs
    simp only [List.foldl_cons]
    refine (ih (addOcc eq gs o)).trans ?_
    refine ((addOcc_members_perm eq gs o).append_right os).trans ?_
    rw [List.cons_append]
    exact List.perm_middle.symm

/-- `run_script_on_mesh` under an always-succeeding engine: one
invocation, success, console output only with `verbose`. -/
theorem run_ok (engine : Invocation → EngResult)
    (imesh script omesh : List String) (verbose : Bool)
    (hE : ∀ inv, (engine inv).exitCode = 0) :
    run_script_on_mesh engine imesh script (some omesh) defaultOptargs verbose
      = ⟨.ok (), [⟨imesh, omesh, defaultOptargs, script⟩],
          if verbose then [(engine ⟨imesh, omesh, defaultOptargs, script⟩).stdout]
          else []⟩ := by
  unfold run_script_on_mesh
  cases verbose <;> simp [hE]

/-- The in-place refinement loop under an always-succeeding engine runs
its invocation exactly `k` times, always on the output path as both
input and output. -/
theorem simplifyIters_ok (engine : Invocation → EngResult)
    (omesh script : List String) (verbose : Bool)
    (hE : ∀ inv, (engine inv).exitCode = 0) :
    ∀ k, simplifyIters engine omesh script verbose k =
      (.ok (), List.replicate k ⟨omesh, omesh, defaultOptargs, script⟩) := by
  intro k
  induction k with
  | zero => rfl
  | succ k ih =>
    simp only [simplifyIters]
    rw [run_ok engine omesh script omesh verbose hE]
    simp [ih, List.replicate_succ]

/-- Each written data row corresponds, in order, to exactly one
occurrence. -/
theorem writeRowsLoop_forall2 (occs : List Occurrence) (rows : List (List (Cell ℝ)))
    (h : writeRowsLoop occs = some rows) :
    List.Forall₂ (fun occ row => occurrenceRow occ = some row) occs rows := by
  induction occs generalizing rows with
  | nil =>
    simp only [writeRowsLoop] at h
    cases h
    exact List.Forall₂.nil
  | cons occ rest ih =>
    simp only [writeRowsLoop] at h
    cases hrow : occurrenceRow occ with
    | none => rw [hrow] at h; simp at h
    | some row =>
      rw [hrow] at h
      cases hrest : writeRowsLoop rest with
      | none => rw [hrest] at h; simp at h
      | some rs =>
        rw [hrest] at h
        simp at h
        cases h
        exact List.Forall₂.cons hrow (ih rs hrest)

/-- C1 counterexample: the claim says the placement observed after an
export call in local-frame mode equals the placement observed before it,
on every exit path; but `make_OBJ` in local-frame mode leaves the object
at the identity placement even on its successful exit path, so a shape
placed at a non-identity placement comes back moved. -/
theorem c1_counterexample :
    (make_OBJ true (Multiplicative.ofAdd (1 : ℤ)) .localStr false).placement ≠
      Multiplicative.ofAdd (1 : ℤ) := by decide

/-- C1 (amended): in local-frame mode, `make_STL` restores the original
placement on its successful exit path, but on an export failure it
leaves the placement at the identity, and `make_OBJ` leaves the
placement at the identity on every exit path (no restoration at all). -/
theorem c1_local_frame_placement {G : Type} [Group G] (pl0 : G) :
    (make_STL true pl0 .localStr false).placement = pl0 ∧
    (make_STL false pl0 .localStr false).placement = 1 ∧
    ∀ ok : Bool, (make_OBJ ok pl0 .localStr false).placement = 1 := by
  refine ⟨rfl, ?_, ?_⟩
  · simp [make_STL]
  · intro ok
    cases ok <;> simp [make_OBJ]

/-- C2 counterexample: the claim says the partition tests the
geometric-equality predicate; on a document with two occurrences that
share a Label but have different geometry handles, `get_unique_objects`
keeps a single representative while the claimed procedure run with
geometric equality produces two groups. -/
theorem c2_counterexample :
    get_unique_objects [⟨"A", 0⟩, ⟨"A", 1⟩] ≠
      (dedupeSpec geomEqObj [⟨"A", 0⟩, ⟨"A", 1⟩]).map (fun g => g.rep) := by decide

/-- C2 (amended): `get_unique_objects` partitions the document's objects
by Label equality (not by the geometric-equality predicate): its result
is exactly the representative list of the procedure that tests each
object against every existing group's representative in group-creation
order, joins the first match and otherwise starts a new group
represented by that first-seen object; and the groups so formed
partition the document (their member lists are a permutation of the
objects). -/
theorem c2_dedupe_partition (objects : List FCObj) :
    get_unique_objects objects = (dedupeSpec labelEqObj objects).map (fun g => g.rep) ∧
    ((dedupeSpec labelEqObj objects).flatMap (fun g => g.members)).Perm objects := by
  constructor
  · have h := dedupe_fold_inv objects []
    simpa [get_unique_objects, dedupeSpec] using h
  · have h := dedupe_members_perm labelEqObj objects []
    simpa [dedupeSpec] using h

/-- C3: evaluating `make_simplified_STL` at `n_iterations = 0` (the
claim and the function's own docstring call for a no-op with zero engine
runs): the code still invokes the engine once, writing `simple.stl`, and
returns that new path instead of the input path. -/
theorem c3_zero_iterations_runs_engine :
    (make_simplified_STL engine0 ["parts", "full.stl"] ["simplifymesh.mlx"]
        none 0 false).result = .ok ["parts", "simple.stl"] ∧
    (make_simplified_STL engine0 ["parts", "full.stl"] ["simplifymesh.mlx"]
        none 0 false).invocations
      = [⟨["parts", "full.stl"], ["parts", "simple.stl"], defaultOptargs,
          ["simplifymesh.mlx"]⟩] ∧
    (["parts", "simple.stl"] : List String) ≠ ["parts", "full.stl"] := by decide

/-- C4 counterexample: the claim says the first invocation writes to a
path distinct from the input for every input path; but when the input is
already named `simple.stl`, the default output path coincides with it,
so invocation 1 reads and writes the same path. -/
theorem c4_counterexample :
    (make_simplified_STL engine0 ["parts", "simple.stl"] ["simplifymesh.mlx"]
        none 2 false).invocations
      = [⟨["parts", "simple.stl"], ["parts", "simple.stl"], defaultOptargs,
          ["simplifymesh.mlx"]⟩,
         ⟨["parts", "simple.stl"], ["parts", "simple.stl"], defaultOptargs,
          ["simplifymesh.mlx"]⟩] := by decide

/-- C4 (amended): for every iteration count N at least 2 (under a
succeeding engine), `make_simplified_STL` with the default output path
invokes the engine exactly N times; invocation 1 reads the input path
and writes the resolved output path `simple.stl` next to the input,
which is distinct from the input whenever the input file is not itself
named `simple.stl`; invocations 2..N use that output path as both input
and output. -/
theorem c4_simplify_path_discipline (engine : Invocation → EngResult)
    (imesh script : List String) (n : Int) (verbose : Bool)
    (hE : ∀ inv, (engine inv).exitCode = 0) (hn : 2 ≤ n)
    (hname : imesh.getLast? ≠ some "simple.stl") :
    (make_simplified_STL engine imesh script none n verbose).result
        = .ok (imesh.dropLast ++ ["simple.stl"]) ∧
    (make_simplified_STL engine imesh script none n verbose).invocations.length
        = n.toNat ∧
    (make_simplified_STL engine imesh script none n verbose).invocations.head? =
      some ⟨imesh, imesh.dropLast ++ ["simple.stl"], defaultOptargs, script⟩ ∧
    imesh.dropLast ++ ["simple.stl"] ≠ imesh ∧
    ∀ inv ∈ (make_simplified_STL engine imesh script none n verbose).invocations.tail,
      inv = ⟨imesh.dropLast ++ ["simple.stl"], imesh.dropLast ++ ["simple.stl"],
        defaultOptargs, script⟩ := by
  have hdist : imesh.dropLast ++ ["simple.stl"] ≠ imesh := by
    intro h
    apply hname
    rw [← h, List.getLast?_concat]
  have hmk : make_simplified_STL engine imesh script none n verbose =
      ⟨.ok (imesh.dropLast ++ ["simple.stl"]),
        ⟨imesh, imesh.dropLast ++ ["simple.stl"], defaultOptargs, script⟩ ::
          List.replicate (n - 1).toNat
            ⟨imesh.dropLast ++ ["simple.stl"], imesh.dropLast ++ ["simple.stl"],
              defaultOptargs, script⟩⟩ := by
    simp only [make_simplified_STL, Option.getD_none]
    rw [run_ok engine imesh script (imesh.dropLast ++ ["simple.stl"]) false hE,
      simplifyIters_ok engine (imesh.dropLast ++ ["simple.stl"]) script verbose hE]
    simp
  rw [hmk]
  refine ⟨rfl, ?_, rfl, hdist, ?_⟩
  · simp only [List.length_cons, List.length_replicate]
    omega
  · intro inv hinv
    simp only [List.tail_cons] at hinv
    exact List.eq_of_mem_replicate hinv

/-- C4 witness: the path-discipline theorem applied at a concrete call
with two iterations. -/
theorem c4_witness :
    (2 : Int) ≤ 2 ∧ (["a", "full.stl"] : List String).getLast? ≠ some "simple.stl" ∧
    ((make_simplified_STL engine0 ["a", "full.stl"] ["s.mlx"] none 2 false).result
        = .ok (["a", "full.stl"].dropLast ++ ["simple.stl"]) ∧
      (make_simplified_STL engine0 ["a", "full.stl"] ["s.mlx"] none 2 false).invocations.length
        = (2 : Int).toNat ∧
      (make_simplified_STL engine0 ["a", "full.stl"] ["s.mlx"] none 2 false).invocations.head? =
        some ⟨["a", "full.stl"], ["a", "full.stl"].dropLast ++ ["simple.stl"],
          defaultOptargs, ["s.mlx"]⟩ ∧
      ["a", "full.stl"].dropLast ++ ["simple.stl"] ≠ ["a", "full.stl"] ∧
      ∀ inv ∈ (make_simplified_STL engine0 ["a", "full.stl"] ["s.mlx"]
          none 2 false).invocations.tail,
        inv = ⟨["a", "full.stl"].dropLast ++ ["simple.stl"],
          ["a", "full.stl"].dropLast ++ ["simple.stl"], defaultOptargs, ["s.mlx"]⟩) :=
  ⟨by decide, by decide,
    c4_simplify_path_discipline engine0 ["a", "full.stl"] ["s.mlx"] 2 false
      (fun _ => rfl) (by decide) (by decide)⟩

/-- C5 counterexample: the claim says a non-zero engine exit fails the
call also in quiet mode; but with a concrete engine that exits with
code 2, the quiet-mode call returns success. -/
theorem c5_counterexample :
    (run_script_on_mesh engine2 ["a", "in.stl"] ["s.mlx"] (some ["a", "out.stl"])
        defaultOptargs false).result = .ok () ∧
    (engine2 ⟨["a", "in.stl"], ["a", "out.stl"], defaultOptargs, ["s.mlx"]⟩).exitCode
      = 2 := by decide

/-- C5 (amended): a non-zero engine exit fails the invocation call with
an error carrying the exit code only in verbose mode
(`subprocess.check_output`); in quiet mode the exit status is discarded
and the call returns success. -/
theorem c5_failure_only_in_verbose (engine : Invocation → EngResult)
    (imesh script omesh : List String) (optargs : String)
    (hfail : (engine ⟨imesh, omesh, optargs, script⟩).exitCode ≠ 0) :
    (run_script_on_mesh engine imesh script (some omesh) optargs true).result
      = .error (.calledProcessError
          (engine ⟨imesh, omesh, optargs, script⟩).exitCode) ∧
    (run_script_on_mesh engine imesh script (some omesh) optargs false).result
      = .ok () := by
  constructor
  · simp [run_script_on_mesh, hfail]
  · simp [run_script_on_mesh]

/-- C5 witness: the failure-reporting theorem applied to a concrete
engine that exits with code 2. -/
theorem c5_witness :
    (engine2 ⟨["b", "in.stl"], ["b", "out.stl"], defaultOptargs, ["t.mlx"]⟩).exitCode
        ≠ 0 ∧
    ((run_script_on_mesh engine2 ["b", "in.stl"] ["t.mlx"] (some ["b", "out.stl"])
        defaultOptargs true).result
      = .error (.calledProcessError
          (engine2 ⟨["b", "in.stl"], ["b", "out.stl"], defaultOptargs, ["t.mlx"]⟩).exitCode) ∧
     (run_script_on_mesh engine2 ["b", "in.stl"] ["t.mlx"] (some ["b", "out.stl"])
        defaultOptargs false).result = .ok ()) :=
  ⟨by decide,
    c5_failure_only_in_verbose engine2 ["b", "in.stl"] ["t.mlx"] ["b", "out.stl"]
      defaultOptargs (by decide)⟩

/-- C6: read-back of a written batch.  The writer tags each record
`"Placement"` (step_to_meshes.py:156) but the reader only starts a new
placement on the tag `"Placement_Index"` (step_to_meshes.py:173), so for
any non-empty batch the reader hits a `"Base"` row with no placement
allocated and raises `IndexError` instead of reconstructing the batch:
the round-trip law fails on every non-empty input. -/
theorem c6_roundtrip_raises :
    csv2placement (placement2csv toMatrix0 [samplePlacement])
      = .error .indexError := by decide

/-- C7 counterexample: at the identity rotation the encoding is
`(angle, axis) = (0, (1, 0, 0))`, not the claimed axis `(0, 1, 0)` (the
source line 21 returns `0., 1., 0., 0.`, read as angle, axis_x, axis_y,
axis_z). -/
theorem c7_counterexample :
    rotation_to_axis_angle 1 0 0 0 1 0 0 0 1 ≠ some (0, 0, 1, 0) := by
  rw [rot_id_eval]
  intro h
  have h2 := Option.some.inj h
  have h3 := congrArg (fun p => p.2.1) h2
  norm_num at h3

/-- C7 (amended): for the identity rotation (the zero-rotation case) the
axis-angle encoding produced has angle 0 and the conventionally fixed
unit axis (1, 0, 0). -/
theorem c7_zero_rotation_axis :
    rotation_to_axis_angle 1 0 0 0 1 0 0 0 1 = some (0, 1, 0, 0) := by
  unfold rotation_to_axis_angle
  rw [if_pos (by norm_num [eps]), if_pos (by norm_num [eps])]

/-- C8: whenever the placements file for a unique part group is written
(all per-occurrence conversions succeed), it consists of exactly the
header row `Label,x [m],y [m],z [m],axis_x,axis_y,axis_z,angle` followed
by exactly one data row per occurrence, in input order. -/
theorem c8_placements_rows (occs : List Occurrence) (rows : List (List (Cell ℝ)))
    (h : writePlacementsCsv occs = some rows) :
    ∃ dataRows, rows = headerRow :: dataRows ∧
      List.Forall₂ (fun occ row => occurrenceRow occ = some row) occs dataRows := by
  simp only [writePlacementsCsv] at h
  cases hl : writeRowsLoop occs with
  | none => rw [hl] at h; simp at h
  | some rs =>
    rw [hl] at h
    simp at h
    exact ⟨rs, h.symm, writeRowsLoop_forall2 occs rs hl⟩

/-- C8 witness: the layout theorem applied to a one-occurrence document
at the identity transform. -/
theorem c8_witness :
    writePlacementsCsv [occ0] = some [headerRow, occ0Row] ∧
    (∃ dataRows, [headerRow, occ0Row] = headerRow :: dataRows ∧
      List.Forall₂ (fun occ row => occurrenceRow occ = some row) [occ0] dataRows) :=
  ⟨writeCsv_occ0_eval, c8_placements_rows [occ0] [headerRow, occ0Row] writeCsv_occ0_eval⟩

/-- C9: an engine invocation is identical with and without verbose mode
(`run_script_on_mesh` builds the same input path, output path, options
and script reference in both branches, so the produced artifact is the
same); quiet mode echoes nothing to the console, verbose only adds the
engine's stdout. -/
theorem c9_verbose_same_invocation (engine : Invocation → EngResult)
    (imesh script : List String) (omesh : Option (List String)) (optargs : String) :
    (run_script_on_mesh engine imesh script omesh optargs true).invocations =
      (run_script_on_mesh engine imesh script omesh optargs false).invocations ∧
    (run_script_on_mesh engine imesh script omesh optargs false).console = [] := by
  cases omesh with
  | none => exact ⟨rfl, rfl⟩
  | some o =>
    constructor
    · by_cases hc : (engine ⟨imesh, o, optargs, script⟩).exitCode ≠ 0
      · simp [run_script_on_mesh, hc]
      · simp [run_script_on_mesh, hc]
    · rfl

/-- C10 counterexample: the claim says an (angle, axis) tuple is always
returned for every real 3x3 matrix; but on a matrix with trace 6 that
misses the singularity branch, `math.acos((r00+r11+r22-1)/2)` is applied
to 2.5, outside `[-1, 1]`, so the call raises `ValueError` and returns
nothing — totality fails even though every division is guarded. -/
theorem c10_counterexample :
    rotation_to_axis_angle 2 0 0 1 2 0 0 0 2 = none := by
  unfold rotation_to_axis_angle
  rw [if_neg (by norm_num [eps])]
  simp only [safeAcos]
  norm_num

/-- C10 (amended): every division performed by
`rotation_to_axis_angle` has a denominator guarded away from zero (the
sine-derived magnitude is replaced by 1 when below epsilon, and in the
180-degree branch a square root is used as a divisor only when its
argument passed the epsilon guard), so no division ever fails; the
conversion returns an (angle, axis) tuple for every matrix whose
arc-cosine argument `(r00+r11+r22-1)/2` lies in `[-1, 1]` — in
particular for every genuine rotation matrix — rather than for every
real 3x3 matrix. -/
theorem c10_division_guards (r00 r01 r02 r10 r11 r12 r20 r21 r22 : ℝ)
    (h1 : -1 ≤ (r00 + r11 + r22 - 1) / 2) (h2 : (r00 + r11 + r22 - 1) / 2 ≤ 1) :
    (rotation_to_axis_angle r00 r01 r02 r10 r11 r12 r20 r21 r22).isSome := by
  simp only [rotation_to_axis_angle]
  by_cases hA : |r01 - r10| < eps ∧ |r02 - r20| < eps ∧ |r12 - r21| < eps
  · rw [if_pos hA]
    by_cases hB : (r01 + r10 < 2 * eps) ∧ |r02 + r20| < 2 * eps ∧
        |r12 + r21| < eps ∧ |r00 + r11 + r22 - 3| < eps
    · rw [if_pos hB]; rfl
    · rw [if_neg hB]
      by_cases hC : (r00 + 1) / 2 > (r11 + 1) / 2 ∧ (r00 + 1) / 2 > (r22 + 1) / 2
      · rw [if_pos hC]
        by_cases hD : (r00 + 1) / 2 < eps
        · rw [if_pos hD]; rfl
        · rw [if_neg hD]
          simp only [safeDiv_of_ne _ _ (sqrt_ne_of_eps _ hD)]
          rfl
      · rw [if_neg hC]
        by_cases hE : (r11 + 1) / 2 > (r22 + 1) / 2
        · rw [if_pos hE]
          by_cases hF : (r11 + 1) / 2 < eps
          · rw [if_pos hF]; rfl
          · rw [if_neg hF]
            simp only [safeDiv_of_ne _ _ (sqrt_ne_of_eps _ hF)]
            rfl
        · rw [if_neg hE]
          by_cases hG : (r22 + 1) / 2 < eps
          · rw [if_pos hG]; rfl
          · rw [if_neg hG]
            simp only [safeDiv_of_ne _ _ (sqrt_ne_of_eps _ hG)]
            rfl
  · rw [if_neg hA]
    by_cases hS : |Real.sqrt ((r21 - r12) * (r21 - r12) + (r02 - r20) * (r02 - r20) +
        (r10 - r01) * (r10 - r01))| < eps
    · rw [if_pos hS]
      simp only [safeAcos_of_mem _ h1 h2, safeDiv_of_ne _ _ (one_ne_zero : (1:ℝ) ≠ 0)]
      rfl
    · rw [if_neg hS]
      have hne : Real.sqrt ((r21 - r12) * (r21 - r12) + (r02 - r20) * (r02 - r20) +
          (r10 - r01) * (r10 - r01)) ≠ 0 := by
        intro h0
        rw [h0] at hS
        exact hS (by norm_num [eps])
      simp only [safeAcos_of_mem _ h1 h2, safeDiv_of_ne _ _ hne]
      rfl

/-- C10 witness: the guard theorem applied at the identity rotation,
whose arc-cosine argument is 1. -/
theorem c10_witness :
    (-1 ≤ ((1:ℝ) + 1 + 1 - 1) / 2) ∧ (((1:ℝ) + 1 + 1 - 1) / 2 ≤ 1) ∧
    (rotation_to_axis_angle 1 0 0 0 1 0 0 0 1).isSome :=
  ⟨by norm_num, by norm_num,
    c10_division_guards 1 0 0 0 1 0 0 0 1 (by norm_num) (by norm_num)⟩
